import Mathlib

/-!
Verification development for the warp kernel of `alg/gdalwarpkernel.cpp`.

The C++ source is shallowly embedded below.  Conventions of the embedding:

* C `double` values are modelled as `ℚ`.  The only floating-point operations
  the kernel performs are additions of small integers and halves, comparisons,
  divisions for progress fractions and truncating casts, all of which are
  exact in `ℚ` for the inputs the claims are about.  (The rounding performed
  by a `(float)` cast in the `GDT_Float32` store path is not modelled; no
  claim depends on it.)
* Typed pixel buffers are modelled as `List ℚ` holding the already-decoded
  element values; a complex element occupies the two slots `2*i` and `2*i+1`,
  mirroring the stride-2 addressing of the source.
* Packed-bit validity planes are `List Nat` of 32-bit words; `none` models a
  NULL plane pointer.  Density planes are `Option (List ℚ)`.
* The progress callback is passed as an explicit argument, the transformer as
  a record field; both are pure functions, matching their documented
  contracts (the opaque `void*` callback contexts are subsumed by closures).
* `GWKGeneralCase` reads the local variable `iDstY` before initialising it
  when issuing its first progress call (lines 768-774 of the source).  The
  embedding makes that indeterminate initial value an explicit parameter
  `iDstY0`.
* The warp is mutually observable through: the final destination image, the
  destination validity/density planes (which the source never writes), the
  list of fractions passed to the progress callback, the list of CPLError
  codes raised, and an instrumentation log of every source-pixel access the
  kernel makes (recorded as `(iSrcX, iSrcY, iSrcOffset)` at each
  `GWKGetPixelValue` call site).
-/

/-- CPLErr return codes (only the two the kernel uses). -/
inductive CPLErr where
  | CE_None : CPLErr
  | CE_Failure : CPLErr
deriving DecidableEq, Repr

/-- CPLError error numbers raised by the kernel (only user interrupt occurs). -/
inductive CPLErrorNum where
  | CPLE_UserInterrupt : CPLErrorNum
deriving DecidableEq, Repr

/-- GDALDataType: the twelve working data types plus GDT_Unknown. -/
inductive GDALDataType where
  | GDT_Unknown : GDALDataType
  | GDT_Byte : GDALDataType
  | GDT_Int16 : GDALDataType
  | GDT_UInt16 : GDALDataType
  | GDT_Int32 : GDALDataType
  | GDT_UInt32 : GDALDataType
  | GDT_Float32 : GDALDataType
  | GDT_Float64 : GDALDataType
  | GDT_CInt16 : GDALDataType
  | GDT_CInt32 : GDALDataType
  | GDT_CFloat32 : GDALDataType
  | GDT_CFloat64 : GDALDataType
deriving DecidableEq, Repr

/-- GDALResampleAlg: the three resampling algorithms. -/
inductive GDALResampleAlg where
  | GRA_NearestNeighbour : GDALResampleAlg
  | GRA_Bilinear : GDALResampleAlg
  | GRA_Cubic : GDALResampleAlg
deriving DecidableEq, Repr

open CPLErr CPLErrorNum GDALDataType GDALResampleAlg

/-- C cast of a double to an integer type: truncation toward zero. -/
def truncQ (x : ℚ) : Int :=
  if x < 0 then -(Int.floor (-x)) else Int.floor x

/-- C truth test of an integer word (`w` used as a condition is `w != 0`). -/
def cNonzero (n : Nat) : Bool := n != 0

/-- Write element `i` of a buffer (no-op outside the buffer, as no claim is
about out-of-bounds destination writes; a negative index is unreachable at
every call site). -/
def setElem (l : List ℚ) (i : Int) (v : ℚ) : List ℚ :=
  if 0 ≤ i then l.set i.toNat v else l

/-- Result of one transformer invocation: the rewritten coordinate arrays,
the per-point success flags and the overall return value. -/
structure TransformResult where
  padfX : List ℚ
  padfY : List ℚ
  padfZ : List ℚ
  pabSuccess : List Bool
  retval : Bool

/-- GDALTransformerFunc, restricted to the bDstToSrc=TRUE mode the kernel
uses: it receives the point count and the three coordinate arrays. -/
def GDALTransformerFunc : Type :=
  Int → List ℚ → List ℚ → List ℚ → TransformResult

/-- The GDALWarpKernel parameter record (gdalwarper.h / gdalwarpkernel.cpp).
`papabyDstImage` holds the destination contents at entry; the warp threads
the evolving destination image through its loops and returns the final one. -/
structure GDALWarpKernel where
  eResample : GDALResampleAlg
  eWorkingDataType : GDALDataType
  nBands : Int
  nSrcXSize : Int
  nSrcYSize : Int
  nSrcXOff : Int
  nSrcYOff : Int
  papabySrcImage : List (List ℚ)
  papanBandSrcValid : Option (List (Option (List Nat)))
  panUnifiedSrcValid : Option (List Nat)
  pafUnifiedSrcDensity : Option (List ℚ)
  nDstXSize : Int
  nDstYSize : Int
  nDstXOff : Int
  nDstYOff : Int
  papabyDstImage : List (List ℚ)
  panDstValid : Option (List Nat)
  pafDstDensity : Option (List ℚ)
  pfnTransformer : GDALTransformerFunc
  dfProgressBase : ℚ
  dfProgressScale : ℚ

/-- One source-pixel access as logged by the instrumentation:
`(iSrcX, iSrcY, iSrcOffset)` at a `GWKGetPixelValue` call. -/
abbrev SrcAccess : Type := Int × Int × Int

/-- Full observable state of a warp run. -/
structure WarpState where
  eErr : CPLErr
  papabyDstImage : List (List ℚ)
  panDstValid : Option (List Nat)
  pafDstDensity : Option (List ℚ)
  progressLog : List ℚ
  errorLog : List CPLErrorNum
  accessLog : List SrcAccess

/-- Element `j` of destination band `b`. -/
def dstSlot (dst : List (List ℚ)) (b j : Nat) : ℚ :=
  (dst.getD b []).getD j 0

/-- Number of buffer slots one element occupies (2 for complex types). -/
def dtStride (t : GDALDataType) : Int :=
  match t with
  | GDT_CInt16 => 2
  | GDT_CInt32 => 2
  | GDT_CFloat32 => 2
  | GDT_CFloat64 => 2
  | _ => 1

/-- Lines 665-667: the unified source validity rejection test.  The source
uses logical AND (`&&`) between the mask word and the bit mask, so the test
degenerates to `word != 0` - the bug is preserved faithfully. -/
def unifiedSrcInvalid (poWK : GDALWarpKernel) (iSrcOffset : Int) : Bool :=
  match poWK.panUnifiedSrcValid with
  | none => false
  | some plane =>
      !(cNonzero (plane.getD (iSrcOffset / 32).toNat 0) &&
        cNonzero (1 <<< (iSrcOffset % 32).toNat))

/-- Lines 673-676: the per-band source validity rejection test (same
logical-AND slip as the unified test). -/
def bandSrcInvalid (poWK : GDALWarpKernel) (iBand : Nat) (iSrcOffset : Int) :
    Bool :=
  match poWK.papanBandSrcValid with
  | none => false
  | some planes =>
      match planes.getD iBand none with
      | none => false
      | some plane =>
          !(cNonzero (plane.getD (iSrcOffset / 32).toNat 0) &&
            cNonzero (1 <<< (iSrcOffset % 32).toNat))

/-- Lines 864-867: skip a destination pixel whose validity word tests
nonzero (again `&&` where `&` was meant). -/
def dstValidSkip (poWK : GDALWarpKernel) (iDstOffset : Int) : Bool :=
  match poWK.panDstValid with
  | none => false
  | some plane =>
      cNonzero (plane.getD (iDstOffset / 32).toNat 0) &&
      cNonzero (1 <<< (iDstOffset % 32).toNat)

/-- The progress fraction passed at both call sites (lines 768-769 and
914-915): `dfProgressBase + dfProgressScale * ((iDstY+1) / nDstYSize)`. -/
def progressFrac (poWK : GDALWarpKernel) (iDstY : Int) : ℚ :=
  poWK.dfProgressBase +
    poWK.dfProgressScale * (((iDstY : ℚ) + 1) / (poWK.nDstYSize : ℚ))

/-- GWKSetPixelValue (lines 540-652).  Stores a sampled value into
destination band `iBand` at element `iDstOffset`, with the per-format
saturation of the source - including the inverted `GDT_Int32` minimum test
of line 591, kept as written.  The comment block at lines 547-549 notes that
destination density and validity updates are not implemented; accordingly
nothing but the band buffer is touched. -/
def GWKSetPixelValue (poWK : GDALWarpKernel) (dst : List (List ℚ))
    (iBand : Nat) (iDstOffset : Int) (dfDensity dfReal dfImag : ℚ) :
    List (List ℚ) × Bool :=
  let pabyDst := dst.getD iBand []
  let _ := dfDensity
  match poWK.eWorkingDataType with
  | GDT_Byte =>
      let v : ℚ := if dfReal < 0 then 0
        else if dfReal > 255 then 255 else (truncQ dfReal : ℚ)
      (dst.set iBand (setElem pabyDst iDstOffset v), true)
  | GDT_Int16 =>
      let v : ℚ := if dfReal < -32768 then -32768
        else if dfReal > 32767 then 32767 else (truncQ dfReal : ℚ)
      (dst.set iBand (setElem pabyDst iDstOffset v), true)
  | GDT_UInt16 =>
      let v : ℚ := if dfReal < 0 then 0
        else if dfReal > 65535 then 65535 else (truncQ dfReal : ℚ)
      (dst.set iBand (setElem pabyDst iDstOffset v), true)
  | GDT_UInt32 =>
      let v : ℚ := if dfReal < 0 then 0
        else if dfReal > 4294967295 then 4294967295 else (truncQ dfReal : ℚ)
      (dst.set iBand (setElem pabyDst iDstOffset v), true)
  | GDT_Int32 =>
      let v : ℚ := if dfReal < 2147483648 then 0
        else if dfReal > 2147483647 then 2147483647 else (truncQ dfReal : ℚ)
      (dst.set iBand (setElem pabyDst iDstOffset v), true)
  | GDT_Float32 =>
      (dst.set iBand (setElem pabyDst iDstOffset dfReal), true)
  | GDT_Float64 =>
      (dst.set iBand (setElem pabyDst iDstOffset dfReal), true)
  | GDT_CInt16 =>
      let vr : ℚ := if dfReal < -32768 then -32768
        else if dfReal > 32767 then 32767 else (truncQ dfReal : ℚ)
      let vi : ℚ := if dfImag < -32768 then -32768
        else if dfImag > 32767 then 32767 else (truncQ dfImag : ℚ)
      (dst.set iBand
        (setElem (setElem pabyDst (iDstOffset * 2) vr) (iDstOffset * 2 + 1) vi),
       true)
  | GDT_CInt32 =>
      let vr : ℚ := if dfReal < -2147483648 then -2147483648
        else if dfReal > 2147483647 then 2147483647 else (truncQ dfReal : ℚ)
      let vi : ℚ := if dfImag < -2147483648 then -2147483648
        else if dfImag > 2147483647 then 2147483647 else (truncQ dfImag : ℚ)
      (dst.set iBand
        (setElem (setElem pabyDst (iDstOffset * 2) vr) (iDstOffset * 2 + 1) vi),
       true)
  | GDT_CFloat32 =>
      (dst.set iBand
        (setElem (setElem pabyDst (iDstOffset * 2) dfReal)
          (iDstOffset * 2 + 1) dfImag),
       true)
  | GDT_CFloat64 =>
      (dst.set iBand
        (setElem (setElem pabyDst (iDstOffset * 2) dfReal)
          (iDstOffset * 2 + 1) dfImag),
       true)
  | GDT_Unknown => (dst, false)

/-- GWKGetPixelValue (lines 658-750).  Returns the C return value together
with the density, real and imaginary outputs (the caller initialises all
three to 0.0, so an arm that leaves an output unwritten yields 0). -/
def GWKGetPixelValue (poWK : GDALWarpKernel) (iBand : Nat)
    (iSrcOffset : Int) : Bool × ℚ × ℚ × ℚ :=
  let pabySrc := poWK.papabySrcImage.getD iBand []
  if unifiedSrcInvalid poWK iSrcOffset then (false, 0, 0, 0)
  else if bandSrcInvalid poWK iBand iSrcOffset then (false, 0, 0, 0)
  else
    let pair : Option (ℚ × ℚ) :=
      match poWK.eWorkingDataType with
      | GDT_Byte => some (pabySrc.getD iSrcOffset.toNat 0, 0)
      | GDT_Int16 => some (pabySrc.getD iSrcOffset.toNat 0, 0)
      | GDT_UInt16 => some (pabySrc.getD iSrcOffset.toNat 0, 0)
      | GDT_Int32 => some (pabySrc.getD iSrcOffset.toNat 0, 0)
      | GDT_UInt32 => some (pabySrc.getD iSrcOffset.toNat 0, 0)
      | GDT_Float32 => some (pabySrc.getD iSrcOffset.toNat 0, 0)
      | GDT_Float64 => some (pabySrc.getD iSrcOffset.toNat 0, 0)
      | GDT_CInt16 => some (pabySrc.getD (iSrcOffset * 2).toNat 0,
          pabySrc.getD (iSrcOffset * 2 + 1).toNat 0)
      | GDT_CInt32 => some (pabySrc.getD (iSrcOffset * 2).toNat 0,
          pabySrc.getD (iSrcOffset * 2 + 1).toNat 0)
      | GDT_CFloat32 => some (pabySrc.getD (iSrcOffset * 2).toNat 0,
          pabySrc.getD (iSrcOffset * 2 + 1).toNat 0)
      | GDT_CFloat64 => some (pabySrc.getD (iSrcOffset * 2).toNat 0,
          pabySrc.getD (iSrcOffset * 2 + 1).toNat 0)
      | GDT_Unknown => none
    match pair with
    | none => (false, 0, 0, 0)
    | some (r, im) =>
        let d : ℚ :=
          match poWK.pafUnifiedSrcDensity with
          | some den => den.getD iSrcOffset.toNat 0
          | none => 1
        (decide (d ≠ 0), d, r, im)

/-- The per-band loop of GWKGeneralCase (lines 874-908), over the list of
remaining band indices.  State: destination image and source-access log. -/
def GWKBandLoop (poWK : GDALWarpKernel) (iSrcX iSrcY iSrcOffset iDstOffset : Int) :
    List Nat → List (List ℚ) × List SrcAccess → List (List ℚ) × List SrcAccess
  | [], st => st
  | iBand :: rest, st =>
      if poWK.eResample = GRA_NearestNeighbour then
        if (GWKGetPixelValue poWK iBand iSrcOffset).2.1 = 0 then
          GWKBandLoop poWK iSrcX iSrcY iSrcOffset iDstOffset rest
            (st.1, st.2 ++ [(iSrcX, iSrcY, iSrcOffset)])
        else
          GWKBandLoop poWK iSrcX iSrcY iSrcOffset iDstOffset rest
            ((GWKSetPixelValue poWK st.1 iBand iDstOffset
                (GWKGetPixelValue poWK iBand iSrcOffset).2.1
                (GWKGetPixelValue poWK iBand iSrcOffset).2.2.1
                (GWKGetPixelValue poWK iBand iSrcOffset).2.2.2).1,
             st.2 ++ [(iSrcX, iSrcY, iSrcOffset)])
      else
        GWKBandLoop poWK iSrcX iSrcY iSrcOffset iDstOffset rest st

/-- The body of the per-pixel loop of GWKGeneralCase (lines 830-909) for one
output column `iDstX` of row `iDstY`. -/
def GWKPixelBody (poWK : GDALWarpKernel) (nResWinSize : Int) (iDstY : Nat)
    (padfX padfY : List ℚ) (pabSuccess : List Bool) (iDstX : Nat)
    (st : List (List ℚ) × List SrcAccess) :
    List (List ℚ) × List SrcAccess :=
  if !pabSuccess.getD iDstX false then st
  else if padfX.getD iDstX 0 < ((poWK.nSrcXOff + nResWinSize : Int) : ℚ) ∨
      padfY.getD iDstX 0 < ((poWK.nSrcYOff + nResWinSize : Int) : ℚ) then st
  else if truncQ (padfX.getD iDstX 0) - poWK.nSrcXOff ≥
        poWK.nSrcXSize - nResWinSize ∨
      truncQ (padfY.getD iDstX 0) - poWK.nSrcYOff ≥
        poWK.nSrcYSize - nResWinSize then st
  else if dstValidSkip poWK ((iDstX : Int) + (iDstY : Int) * poWK.nDstXSize)
    then st
  else
    GWKBandLoop poWK
      (truncQ (padfX.getD iDstX 0) - poWK.nSrcXOff)
      (truncQ (padfY.getD iDstX 0) - poWK.nSrcYOff)
      ((truncQ (padfX.getD iDstX 0) - poWK.nSrcXOff) +
        (truncQ (padfY.getD iDstX 0) - poWK.nSrcYOff) * poWK.nSrcXSize)
      ((iDstX : Int) + (iDstY : Int) * poWK.nDstXSize)
      (List.range poWK.nBands.toNat) st

/-- The per-pixel loop over the remaining output columns. -/
def GWKPixelLoop (poWK : GDALWarpKernel) (nResWinSize : Int) (iDstY : Nat)
    (padfX padfY : List ℚ) (pabSuccess : List Bool) :
    List Nat → List (List ℚ) × List SrcAccess → List (List ℚ) × List SrcAccess
  | [], st => st
  | iDstX :: rest, st =>
      GWKPixelLoop poWK nResWinSize iDstY padfX padfY pabSuccess rest
        (GWKPixelBody poWK nResWinSize iDstY padfX padfY pabSuccess iDstX st)

/-- One output row of GWKGeneralCase (lines 806-909): build the scanline
coordinate arrays, invoke the transformer (its overall return value is
discarded, exactly as at line 824), then run the pixel loop. -/
def GWKRowBody (poWK : GDALWarpKernel) (nResWinSize : Int) (iDstY : Nat)
    (st : List (List ℚ) × List SrcAccess) :
    List (List ℚ) × List SrcAccess :=
  let n := poWK.nDstXSize.toNat
  let padfX := (List.range n).map
    (fun iDstX => (iDstX : ℚ) + 1/2 + (poWK.nDstXOff : ℚ))
  let padfY := (List.range n).map
    (fun _ => (iDstY : ℚ) + 1/2 + (poWK.nDstYOff : ℚ))
  let padfZ := (List.range n).map (fun _ => (0 : ℚ))
  let tr := poWK.pfnTransformer poWK.nDstXSize padfX padfY padfZ
  GWKPixelLoop poWK nResWinSize iDstY tr.padfX tr.padfY tr.pabSuccess
    (List.range n) st

/-- The scanline loop of GWKGeneralCase (lines 806-921), including the guard
`eErr == CE_None` of the for condition and the end-of-row progress check. -/
def GWKRowLoop (poWK : GDALWarpKernel) (pfnProgress : ℚ → Bool)
    (nResWinSize : Int) : List Nat → WarpState → WarpState
  | [], st => st
  | iDstY :: rest, st =>
      if st.eErr ≠ CE_None then st
      else
        let body := GWKRowBody poWK nResWinSize iDstY
          (st.papabyDstImage, st.accessLog)
        let frac := progressFrac poWK (iDstY : Int)
        let st2 : WarpState :=
          { st with papabyDstImage := body.1, accessLog := body.2,
                    progressLog := st.progressLog ++ [frac] }
        if pfnProgress frac then
          GWKRowLoop poWK pfnProgress nResWinSize rest st2
        else
          GWKRowLoop poWK pfnProgress nResWinSize rest
            { st2 with eErr := CE_Failure,
                       errorLog := st2.errorLog ++ [CPLE_UserInterrupt] }

/-- GWKGeneralCase (lines 760-932).  `iDstY0` is the indeterminate value the
uninitialised local `iDstY` happens to hold at the progress call of lines
768-774, which precedes the scanline loop. -/
def GWKGeneralCase (iDstY0 : Int) (poWK : GDALWarpKernel)
    (pfnProgress : ℚ → Bool) : WarpState :=
  let st0 : WarpState :=
    { eErr := CE_None, papabyDstImage := poWK.papabyDstImage,
      panDstValid := poWK.panDstValid, pafDstDensity := poWK.pafDstDensity,
      progressLog := [], errorLog := [], accessLog := [] }
  let frac0 := progressFrac poWK iDstY0
  let st1 : WarpState := { st0 with progressLog := [frac0] }
  if !pfnProgress frac0 then
    { st1 with eErr := CE_Failure, errorLog := [CPLE_UserInterrupt] }
  else
    let nResWinSize : Int :=
      if poWK.eResample = GRA_Bilinear then 1
      else if poWK.eResample = GRA_Cubic then 2
      else 0
    GWKRowLoop poWK pfnProgress nResWinSize
      (List.range poWK.nDstYSize.toNat) st1

/-- GDALWarpKernel::Validate (lines 530-534): the source returns CE_None
unconditionally. -/
def GDALWarpKernel.Validate (_poWK : GDALWarpKernel) : CPLErr := CE_None

/-- GDALWarpKernel::PerformWarp (lines 502-511). -/
def GDALWarpKernel.PerformWarp (poWK : GDALWarpKernel) (iDstY0 : Int)
    (pfnProgress : ℚ → Bool) : WarpState :=
  match poWK.Validate with
  | CE_Failure =>
      { eErr := CE_Failure, papabyDstImage := poWK.papabyDstImage,
        panDstValid := poWK.panDstValid, pafDstDensity := poWK.pafDstDensity,
        progressLog := [], errorLog := [], accessLog := [] }
  | CE_None => GWKGeneralCase iDstY0 poWK pfnProgress

/-- Modelled from the spec (section 4.2, Mask accessor): the intended
packed-bit validity test, `plane[i / 32]` bit `(i mod 32)`; used to compare
the code against the specified bit semantics. -/
def spec_is_valid (plane : Option (List Nat)) (i : Nat) : Bool :=
  match plane with
  | none => true
  | some p => Nat.testBit (p.getD (i / 32) 0) (i % 32)

/-- The in-bounds property of one logged source access: window-local
coordinates inside `[0, nSrcXSize) × [0, nSrcYSize)`, the row-major offset
relation, and the derived element/mask-word bounds. -/
def accessInBounds (poWK : GDALWarpKernel) (e : SrcAccess) : Prop :=
  0 ≤ e.1 ∧ e.1 < poWK.nSrcXSize ∧ 0 ≤ e.2.1 ∧ e.2.1 < poWK.nSrcYSize ∧
  e.2.2 = e.1 + e.2.1 * poWK.nSrcXSize ∧
  e.2.2 < poWK.nSrcXSize * poWK.nSrcYSize ∧
  e.2.2.toNat / 32 < (poWK.nSrcXSize.toNat * poWK.nSrcYSize.toNat + 31) / 32

/-- A transformer that returns its input coordinates unchanged and marks
every point successful. -/
def identityTransformer : GDALTransformerFunc :=
  fun nPointCount padfX padfY padfZ =>
    { padfX := padfX, padfY := padfY, padfZ := padfZ,
      pabSuccess := List.replicate nPointCount.toNat true, retval := true }

/-- Identity transformer variant whose overall return value is FALSE while
every per-point success flag is set. -/
def overallFalseTransformer : GDALTransformerFunc :=
  fun nPointCount padfX padfY padfZ =>
    { padfX := padfX, padfY := padfY, padfZ := padfZ,
      pabSuccess := List.replicate nPointCount.toNat true, retval := false }

/-- Scenario S1 of the spec: Byte, one band, 4 by 4 source holding 0..15
row-major, identity transformer, 4 by 4 zeroed destination, no masks. -/
def kIdent : GDALWarpKernel :=
  { eResample := GRA_NearestNeighbour
    eWorkingDataType := GDT_Byte
    nBands := 1
    nSrcXSize := 4, nSrcYSize := 4, nSrcXOff := 0, nSrcYOff := 0
    papabySrcImage := [[0,1,2,3,4,5,6,7,8,9,10,11,12,13,14,15]]
    papanBandSrcValid := none
    panUnifiedSrcValid := none
    pafUnifiedSrcDensity := none
    nDstXSize := 4, nDstYSize := 4, nDstXOff := 0, nDstYOff := 0
    papabyDstImage := [List.replicate 16 0]
    panDstValid := none
    pafDstDensity := none
    pfnTransformer := identityTransformer
    dfProgressBase := 0, dfProgressScale := 1 }

/-- S1 with Bilinear resampling selected. -/
def kBilinear : GDALWarpKernel := { kIdent with eResample := GRA_Bilinear }

/-- S1 with the Int32 working data type. -/
def kInt32 : GDALWarpKernel := { kIdent with eWorkingDataType := GDT_Int32 }

/-- S1 plus a unified source validity plane whose single word is 2: only
bit 1 is set, so under the specified bit semantics element 0 is invalid. -/
def kUnifiedMask : GDALWarpKernel :=
  { kIdent with panUnifiedSrcValid := some [2] }

/-- S1 plus a per-band validity plane for band 0 whose single word is 2. -/
def kBandMask : GDALWarpKernel :=
  { kIdent with papanBandSrcValid := some [some [2]] }

/-- S1 plus a destination validity plane whose single word is 2. -/
def kDstMask : GDALWarpKernel := { kIdent with panDstValid := some [2] }

/-- S1 plus an all-zero destination density plane and an all-zero
destination validity plane. -/
def kDstPlanes : GDALWarpKernel :=
  { kIdent with pafDstDensity := some (List.replicate 16 0),
                panDstValid := some [0] }

/-- S1 with an invalid configuration: Unknown working data type and zero
bands. -/
def kUnknownFmt : GDALWarpKernel :=
  { kIdent with eWorkingDataType := GDT_Unknown, nBands := 0 }

/-- S1 driven by the overall-FALSE transformer. -/
def kOverallFalse : GDALWarpKernel :=
  { kIdent with pfnTransformer := overallFalseTransformer }

/-- S1 with a single destination row. -/
def kOneRow : GDALWarpKernel := { kIdent with nDstYSize := 1 }

/-- A progress callback that accepts fractions below one half and cancels
at or above it.  Against `kIdent` (fractions (iDstY+1)/4) it first returns
false at the report following row 1. -/
def gCancelAtHalf : ℚ → Bool := fun f => decide (f < 1/2)

/-! ## General lemmas -/

theorem getD_set_ne {α : Type} (l : List α) (i j : Nat) (v d : α)
    (h : i ≠ j) : (l.set i v).getD j d = l.getD j d := by
  simp [List.getD_eq_getElem?_getD, List.getElem?_set_ne h]

theorem le_truncQ (n : Int) (x : ℚ) (h : (n : ℚ) ≤ x) : n ≤ truncQ x := by
  unfold truncQ
  split
  · next hx =>
      have h1 : (-x : ℚ) ≤ ((-n : Int) : ℚ) := by push_cast; linarith
      have h2 : Int.floor (-x) ≤ -n := by
        have h3 := Int.floor_le_floor h1
        simpa using h3
      omega
  · exact Int.le_floor.mpr h

theorem GWKBandLoop_skip (poWK : GDALWarpKernel)
    (h : poWK.eResample ≠ GRA_NearestNeighbour) (a b c d : Int)
    (l : List Nat) (st : List (List ℚ) × List SrcAccess) :
    GWKBandLoop poWK a b c d l st = st := by
  induction l generalizing st with
  | nil => rfl
  | cons i t ih =>
      simp only [GWKBandLoop, if_neg h]
      exact ih st

theorem GWKPixelBody_skip (poWK : GDALWarpKernel)
    (h : poWK.eResample ≠ GRA_NearestNeighbour) (w : Int) (y : Nat)
    (xs ys : List ℚ) (sc : List Bool) (x : Nat)
    (st : List (List ℚ) × List SrcAccess) :
    GWKPixelBody poWK w y xs ys sc x st = st := by
  unfold GWKPixelBody
  split
  · rfl
  · split
    · rfl
    · split
      · rfl
      · split
        · rfl
        · exact GWKBandLoop_skip poWK h _ _ _ _ _ st

theorem GWKPixelLoop_skip (poWK : GDALWarpKernel)
    (h : poWK.eResample ≠ GRA_NearestNeighbour) (w : Int) (y : Nat)
    (xs ys : List ℚ) (sc : List Bool) (l : List Nat)
    (st : List (List ℚ) × List SrcAccess) :
    GWKPixelLoop poWK w y xs ys sc l st = st := by
  induction l generalizing st with
  | nil => rfl
  | cons i t ih =>
      simp only [GWKPixelLoop, GWKPixelBody_skip poWK h]
      exact ih st

theorem GWKRowBody_skip (poWK : GDALWarpKernel)
    (h : poWK.eResample ≠ GRA_NearestNeighbour) (w : Int) (y : Nat)
    (st : List (List ℚ) × List SrcAccess) :
    GWKRowBody poWK w y st = st := by
  unfold GWKRowBody
  exact GWKPixelLoop_skip poWK h _ _ _ _ _ _ st

theorem GWKRowLoop_skip_frame (poWK : GDALWarpKernel) (g : ℚ → Bool)
    (w : Int) (h : poWK.eResample ≠ GRA_NearestNeighbour) (l : List Nat)
    (st : WarpState) :
    (GWKRowLoop poWK g w l st).papabyDstImage = st.papabyDstImage ∧
    (GWKRowLoop poWK g w l st).accessLog = st.accessLog := by
  induction l generalizing st with
  | nil => exact ⟨rfl, rfl⟩
  | cons y t ih =>
      simp only [GWKRowLoop]
      split
      · exact ⟨rfl, rfl⟩
      · simp only [GWKRowBody_skip poWK h]
        split
        · exact ih _
        · exact ih _

theorem GWKRowLoop_true_eErr (poWK : GDALWarpKernel) (g : ℚ → Bool)
    (w : Int) (hall : ∀ f, g f = true) (l : List Nat) (st : WarpState) :
    (GWKRowLoop poWK g w l st).eErr = st.eErr := by
  induction l generalizing st with
  | nil => rfl
  | cons y t ih =>
      simp only [GWKRowLoop]
      split
      · rfl
      · simp only [hall]
        exact ih _

/-- C1: with Bilinear or Cubic resampling selected, the warp leaves every
destination band buffer unchanged (the stubbed resampling branches produce
no contribution, so GWKSetPixelValue is never reached), and it returns
CE_None whenever the progress callback always accepts. -/
theorem C1_bilinear_cubic_frame (poWK : GDALWarpKernel) (g : ℚ → Bool)
    (iDstY0 : Int)
    (hmode : poWK.eResample = GRA_Bilinear ∨ poWK.eResample = GRA_Cubic) :
    (poWK.PerformWarp iDstY0 g).papabyDstImage = poWK.papabyDstImage ∧
    ((∀ f, g f = true) → (poWK.PerformWarp iDstY0 g).eErr = CE_None) := by
  have hne : poWK.eResample ≠ GRA_NearestNeighbour := by
    rcases hmode with h | h <;> simp [h]
  unfold GDALWarpKernel.PerformWarp GDALWarpKernel.Validate GWKGeneralCase
  by_cases hp : g (progressFrac poWK iDstY0)
  · simp only [hp, Bool.not_true, Bool.false_eq_true, if_false]
    constructor
    · exact (GWKRowLoop_skip_frame poWK g _ hne _ _).1
    · intro hall
      exact GWKRowLoop_true_eErr poWK g _ hall _ _
  · simp only [hp]
    constructor
    · rfl
    · intro hall
      rw [hall (progressFrac poWK iDstY0)] at hp
      exact absurd rfl hp

/-- Witness for C1: the Bilinear S1 configuration with an always-true
progress callback leaves the destination at its initial contents and
returns CE_None. -/
theorem C1_witness :
    (kBilinear.PerformWarp 0 (fun _ => true)).papabyDstImage
      = kBilinear.papabyDstImage ∧
    (kBilinear.PerformWarp 0 (fun _ => true)).eErr = CE_None :=
  ⟨(C1_bilinear_cubic_frame kBilinear (fun _ => true) 0 (Or.inl rfl)).1,
   (C1_bilinear_cubic_frame kBilinear (fun _ => true) 0 (Or.inl rfl)).2
     (fun _ => rfl)⟩

theorem GWKBandLoop_access (poWK : GDALWarpKernel) (a b c d : Int)
    (hgood : accessInBounds poWK (a, b, c)) (l : List Nat)
    (st : List (List ℚ) × List SrcAccess)
    (hst : ∀ e ∈ st.2, accessInBounds poWK e) :
    ∀ e ∈ (GWKBandLoop poWK a b c d l st).2, accessInBounds poWK e := by
  induction l generalizing st with
  | nil => exact hst
  | cons i t ih =>
      have happ : ∀ e ∈ st.2 ++ [(a, b, c)], accessInBounds poWK e := by
        intro e he
        rcases List.mem_append.mp he with h1 | h1
        · exact hst e h1
        · rcases List.mem_singleton.mp h1 with rfl
          exact hgood
      simp only [GWKBandLoop]
      split
      · split
        · exact ih _ happ
        · exact ih _ happ
      · exact ih _ hst

theorem GWKPixelBody_access (poWK : GDALWarpKernel) (w : Int) (hw : 0 ≤ w)
    (y : Nat) (xs ys : List ℚ) (sc : List Bool) (x : Nat)
    (st : List (List ℚ) × List SrcAccess)
    (hst : ∀ e ∈ st.2, accessInBounds poWK e) :
    ∀ e ∈ (GWKPixelBody poWK w y xs ys sc x st).2, accessInBounds poWK e := by
  unfold GWKPixelBody
  split
  · exact hst
  · split
    · exact hst
    · next hco =>
        split
        · exact hst
        · next hre =>
            split
            · exact hst
            · apply GWKBandLoop_access poWK _ _ _ _ _ _ st hst
              push_neg at hco hre
              obtain ⟨hx, hy⟩ := hco
              obtain ⟨hx2, hy2⟩ := hre
              have hsx0 : poWK.nSrcXOff + w ≤ truncQ (xs.getD x 0) :=
                le_truncQ _ _ hx
              have hsy0 : poWK.nSrcYOff + w ≤ truncQ (ys.getD x 0) :=
                le_truncQ _ _ hy
              set sx : Int := truncQ (xs.getD x 0) - poWK.nSrcXOff with hsx
              set sy : Int := truncQ (ys.getD x 0) - poWK.nSrcYOff with hsy
              set W : Int := poWK.nSrcXSize with hW
              set H : Int := poWK.nSrcYSize with hH
              have h1 : 0 ≤ sx := by omega
              have h2 : sx < W := by omega
              have h3 : 0 ≤ sy := by omega
              have h4 : sy < H := by omega
              have hWpos : 0 < W := by omega
              have h5 : sy * W ≤ (H - 1) * W :=
                mul_le_mul_of_nonneg_right (by omega) (le_of_lt hWpos)
              have h6 : (H - 1) * W = H * W - W := by ring
              have h7 : sx + sy * W < W * H := by
                have h8 : W * H = H * W := by ring
                omega
              have h9 : 0 ≤ sx + sy * W := by
                have h10 : 0 ≤ sy * W := mul_nonneg h3 (le_of_lt hWpos)
                omega
              refine ⟨h1, h2, h3, h4, rfl, h7, ?_⟩
              have hWn : (W.toNat : Int) = W := Int.toNat_of_nonneg (by omega)
              have hHn : (H.toNat : Int) = H := Int.toNat_of_nonneg (by omega)
              have h11 : ((W.toNat * H.toNat : Nat) : Int) = W * H := by
                push_cast [hWn, hHn]
                ring
              have h13 : ((sx + sy * W).toNat : Int) = sx + sy * W :=
                Int.toNat_of_nonneg h9
              have h12 : (sx + sy * W).toNat < W.toNat * H.toNat := by
                have h15 : (((sx + sy * W).toNat : Nat) : Int) <
                    ((W.toNat * H.toNat : Nat) : Int) := by
                  rw [h13, h11]
                  exact h7
                exact_mod_cast h15
              have h16 : ∀ q m : Nat, q < m → q / 32 < (m + 31) / 32 := by
                intro q m hqm
                omega
              exact h16 _ _ h12

theorem GWKPixelLoop_access (poWK : GDALWarpKernel) (w : Int) (hw : 0 ≤ w)
    (y : Nat) (xs ys : List ℚ) (sc : List Bool) (l : List Nat)
    (st : List (List ℚ) × List SrcAccess)
    (hst : ∀ e ∈ st.2, accessInBounds poWK e) :
    ∀ e ∈ (GWKPixelLoop poWK w y xs ys sc l st).2, accessInBounds poWK e := by
  induction l generalizing st with
  | nil => exact hst
  | cons i t ih =>
      simp only [GWKPixelLoop]
      exact ih _ (GWKPixelBody_access poWK w hw y xs ys sc i st hst)

theorem GWKRowBody_access (poWK : GDALWarpKernel) (w : Int) (hw : 0 ≤ w)
    (y : Nat) (st : List (List ℚ) × List SrcAccess)
    (hst : ∀ e ∈ st.2, accessInBounds poWK e) :
    ∀ e ∈ (GWKRowBody poWK w y st).2, accessInBounds poWK e := by
  unfold GWKRowBody
  exact GWKPixelLoop_access poWK w hw y _ _ _ _ st hst

theorem GWKRowLoop_access (poWK : GDALWarpKernel) (g : ℚ → Bool) (w : Int)
    (hw : 0 ≤ w) (l : List Nat) (st : WarpState)
    (hst : ∀ e ∈ st.accessLog, accessInBounds poWK e) :
    ∀ e ∈ (GWKRowLoop poWK g w l st).accessLog, accessInBounds poWK e := by
  induction l generalizing st with
  | nil => exact hst
  | cons y t ih =>
      simp only [GWKRowLoop]
      split
      · exact hst
      · have hb := GWKRowBody_access poWK w hw y
          (st.papabyDstImage, st.accessLog) hst
        split
        · exact ih _ hb
        · exact ih _ hb

/-- C10: every source access the warp performs - band element, validity
word or density entry, all derived from the single logged element offset -
lies inside the source window: the logged window-local coordinates satisfy
`0 ≤ iSrcX < nSrcXSize`, `0 ≤ iSrcY < nSrcYSize`, the offset is exactly
`iSrcX + iSrcY * nSrcXSize`, and the derived element and mask-word indices
are within the plane sizes.  This holds for every kernel, progress callback,
indeterminate `iDstY0` and arbitrary transformer behaviour; destination
pixels rejected by the driver checks contribute no access at all (they
append nothing to the log). -/
theorem C10_src_access_bounds (poWK : GDALWarpKernel) (g : ℚ → Bool)
    (iDstY0 : Int) :
    ∀ e ∈ (poWK.PerformWarp iDstY0 g).accessLog, accessInBounds poWK e := by
  unfold GDALWarpKernel.PerformWarp GDALWarpKernel.Validate GWKGeneralCase
  by_cases hp : g (progressFrac poWK iDstY0)
  · simp only [hp, Bool.not_true, Bool.false_eq_true, if_false]
    apply GWKRowLoop_access
    · split
      · decide
      · split
        · decide
        · decide
    · intro e he
      simp at he
  · simp only [hp]
    intro e he
    simp at he

/-- Witness for C10: the identity warp performs the access
`(iSrcX, iSrcY, iSrcOffset) = (0, 0, 0)`, and it is in bounds. -/
theorem C10_witness :
    ((0 : Int), (0 : Int), (0 : Int)) ∈
      (kIdent.PerformWarp 0 (fun _ => true)).accessLog ∧
    accessInBounds kIdent ((0 : Int), (0 : Int), (0 : Int)) :=
  ⟨by with_unfolding_all decide,
   C10_src_access_bounds kIdent (fun _ => true) 0
     ((0 : Int), (0 : Int), (0 : Int)) (by with_unfolding_all decide)⟩

/-- C2: the GDT_Int32 store path is broken by the inverted comparison of
line 591.  The in-range input 5 is stored as 0 instead of being truncated
to 5, and the below-minimum input -2147483649 is stored as 0 instead of
saturating to -2147483648; only the above-maximum side behaves as the claim
states. -/
theorem C2_int32_store_broken :
    (GWKSetPixelValue kInt32 [[99]] 0 0 1 5 0).1 = [[0]] ∧
    (GWKSetPixelValue kInt32 [[99]] 0 0 1 (-2147483649) 0).1 = [[0]] ∧
    (GWKSetPixelValue kInt32 [[99]] 0 0 1 2147483648 0).1
      = [[2147483647]] := by
  refine ⟨?_, ?_, ?_⟩ <;>
    norm_num [GWKSetPixelValue, kInt32, kIdent, setElem]

/-- C3: with a validity word equal to 2 (only bit 1 set), the specified
bit test declares element 0 invalid, yet all three gates of the code treat
element 0 by the word-is-nonzero rule: the unified source gate and the
per-band source gate let the sample through with full density, and the
destination gate skips the pixel. -/
theorem C3_validity_word_not_bit :
    spec_is_valid (some [2]) 0 = false ∧
    GWKGetPixelValue kUnifiedMask 0 0 = (true, 1, 0, 0) ∧
    GWKGetPixelValue kBandMask 0 0 = (true, 1, 0, 0) ∧
    dstValidSkip kDstMask 0 = true := by
  with_unfolding_all decide

/-- C4: the warp composites contributions into every destination pixel of
`kDstPlanes` (the destination ends up equal to the source), yet the present
destination density plane keeps all its zero entries (no max-update) and
the present destination validity plane keeps its zero word (no bit is
set). -/
theorem C4_no_dst_density_valid_update :
    (kDstPlanes.PerformWarp 0 (fun _ => true)).papabyDstImage
      = kDstPlanes.papabySrcImage ∧
    (kDstPlanes.PerformWarp 0 (fun _ => true)).pafDstDensity
      = some (List.replicate 16 0) ∧
    (kDstPlanes.PerformWarp 0 (fun _ => true)).panDstValid = some [0] := by
  with_unfolding_all decide

/-- C5: for the invalid configuration with Unknown working data type and
zero bands, Validate still returns CE_None, PerformWarp runs to completion
returning CE_None instead of a configuration failure, and the progress
callback is invoked five times (initial call plus four rows) even though
the claim requires that the warp not execute. -/
theorem C5_validation_is_stub :
    GDALWarpKernel.Validate kUnknownFmt = CE_None ∧
    (kUnknownFmt.PerformWarp 0 (fun _ => true)).eErr = CE_None ∧
    (kUnknownFmt.PerformWarp 0 (fun _ => true)).progressLog.length = 5 := by
  with_unfolding_all decide

/-- C6: with a transformer returning overall FALSE (all per-point flags
set), the warp ignores the overall value: it completes, raises no error,
returns CE_None and writes the whole destination - no TransformerFailure
is produced. -/
theorem C6_overall_false_ignored :
    (kOverallFalse.PerformWarp 0 (fun _ => true)).eErr = CE_None ∧
    (kOverallFalse.PerformWarp 0 (fun _ => true)).errorLog = [] ∧
    (kOverallFalse.PerformWarp 0 (fun _ => true)).papabyDstImage
      = kOverallFalse.papabySrcImage := by
  with_unfolding_all decide

theorem GWKRowLoop_plog_irrel (poWK : GDALWarpKernel) (g : ℚ → Bool)
    (w : Int) : ∀ (l : List Nat) (st' st : WarpState),
    st'.eErr = st.eErr → st'.papabyDstImage = st.papabyDstImage →
    st'.accessLog = st.accessLog → st'.errorLog = st.errorLog →
    ((GWKRowLoop poWK g w l st').papabyDstImage
       = (GWKRowLoop poWK g w l st).papabyDstImage) ∧
    ((GWKRowLoop poWK g w l st').eErr = (GWKRowLoop poWK g w l st).eErr) := by
  intro l
  induction l with
  | nil => exact fun st' st h1 h2 h3 h4 => ⟨h2, h1⟩
  | cons y t ih =>
      intro st' st herr hdst hacc herrlog
      simp only [GWKRowLoop]
      rw [herr, hdst, hacc]
      split
      · exact ⟨hdst, herr⟩
      · split
        · exact ih _ _ rfl rfl rfl herrlog
        · exact ih _ _ rfl rfl rfl (by rw [herrlog])

theorem PerformWarp_iDstY0_irrel (poWK : GDALWarpKernel) (iDstY0 : Int) :
    ((poWK.PerformWarp iDstY0 (fun _ => true)).papabyDstImage
      = (poWK.PerformWarp 0 (fun _ => true)).papabyDstImage) ∧
    ((poWK.PerformWarp iDstY0 (fun _ => true)).eErr
      = (poWK.PerformWarp 0 (fun _ => true)).eErr) := by
  unfold GDALWarpKernel.PerformWarp GDALWarpKernel.Validate GWKGeneralCase
  simp only [Bool.not_true, Bool.false_eq_true, if_false]
  exact GWKRowLoop_plog_irrel poWK _ _ _ _ _ rfl rfl rfl rfl

set_option maxRecDepth 16384 in
/-- C7: the identity warp (scenario S1) succeeds and copies the source to
the destination, for every value the uninitialised pre-loop progress
argument may take. -/
theorem C7_identity_warp (iDstY0 : Int) :
    (kIdent.PerformWarp iDstY0 (fun _ => true)).eErr = CE_None ∧
    (kIdent.PerformWarp iDstY0 (fun _ => true)).papabyDstImage
      = kIdent.papabySrcImage := by
  obtain ⟨hdst, herr⟩ := PerformWarp_iDstY0_irrel kIdent iDstY0
  constructor
  · rw [herr]
    with_unfolding_all decide
  · rw [hdst]
    with_unfolding_all decide

/-- C8: on a one-row warp the progress callback is invoked twice, not once:
an extra initial call precedes the row loop, and its fraction varies with
the indeterminate value of the uninitialised `iDstY` (8 when the stale
value is 7), so the invocations are not exactly the per-row reports the
claim describes. -/
theorem C8_progress_extra_initial_call :
    (kOneRow.PerformWarp 0 (fun _ => true)).progressLog = [1, 1] ∧
    (kOneRow.PerformWarp 7 (fun _ => true)).progressLog = [8, 1] ∧
    (kOneRow.PerformWarp 0 (fun _ => true)).progressLog.length ≠
      kOneRow.nDstYSize.toNat := by
  with_unfolding_all decide

theorem set_getD_self {α : Type} (l : List (List α)) (i : Nat) (nb : List α) :
    (l.set i nb).getD i [] = if i < l.length then nb else l.getD i [] := by
  by_cases h : i < l.length
  · rw [if_pos h]
    simp [List.getD_eq_getElem?_getD, List.getElem?_set_self h]
  · rw [if_neg h]
    rw [List.set_eq_of_length_le (by omega)]

theorem setElem_getD_frame (band : List ℚ) (off : Int) (v : ℚ) (j : Nat)
    (hj : (j : Int) ≠ off) : (setElem band off v).getD j 0 = band.getD j 0 := by
  unfold setElem
  split
  · next hoff =>
      apply getD_set_ne
      omega
  · rfl

theorem dstSlot_set_band (dst : List (List ℚ)) (iBand b j : Nat)
    (nb : List ℚ) (hnb : nb.getD j 0 = (dst.getD iBand []).getD j 0) :
    dstSlot (dst.set iBand nb) b j = dstSlot dst b j := by
  unfold dstSlot
  by_cases hb : b = iBand
  · subst hb
    rw [set_getD_self]
    split
    · exact hnb
    · rfl
  · rw [getD_set_ne _ _ _ _ _ (fun hc => hb hc.symm)]

theorem GWKSetPixelValue_frame (poWK : GDALWarpKernel) (dst : List (List ℚ))
    (iBand : Nat) (off : Int) (d r im : ℚ) (b j : Nat)
    (hj : (j : Int) < dtStride poWK.eWorkingDataType * off ∨
      dtStride poWK.eWorkingDataType * off + dtStride poWK.eWorkingDataType
        ≤ (j : Int)) :
    dstSlot (GWKSetPixelValue poWK dst iBand off d r im).1 b j
      = dstSlot dst b j := by
  cases hfmt : poWK.eWorkingDataType <;>
    rw [hfmt] at hj <;>
    simp only [dtStride] at hj <;>
    simp only [GWKSetPixelValue, hfmt]
  case GDT_CInt16 =>
    exact dstSlot_set_band _ _ _ _ _
      (by rw [setElem_getD_frame _ _ _ _ (by omega),
              setElem_getD_frame _ _ _ _ (by omega)])
  case GDT_CInt32 =>
    exact dstSlot_set_band _ _ _ _ _
      (by rw [setElem_getD_frame _ _ _ _ (by omega),
              setElem_getD_frame _ _ _ _ (by omega)])
  case GDT_CFloat32 =>
    exact dstSlot_set_band _ _ _ _ _
      (by rw [setElem_getD_frame _ _ _ _ (by omega),
              setElem_getD_frame _ _ _ _ (by omega)])
  case GDT_CFloat64 =>
    exact dstSlot_set_band _ _ _ _ _
      (by rw [setElem_getD_frame _ _ _ _ (by omega),
              setElem_getD_frame _ _ _ _ (by omega)])
  all_goals
    exact dstSlot_set_band _ _ _ _ _ (setElem_getD_frame _ _ _ _ (by omega))

theorem GWKBandLoop_frame (poWK : GDALWarpKernel) (a bb c off : Int)
    (b j : Nat)
    (hj : (j : Int) < dtStride poWK.eWorkingDataType * off ∨
      dtStride poWK.eWorkingDataType * off + dtStride poWK.eWorkingDataType
        ≤ (j : Int)) :
    ∀ (l : List Nat) (st : List (List ℚ) × List SrcAccess),
    dstSlot (GWKBandLoop poWK a bb c off l st).1 b j = dstSlot st.1 b j := by
  intro l
  induction l with
  | nil => intro st; rfl
  | cons i t ih =>
      intro st
      simp only [GWKBandLoop]
      split
      · split
        · exact ih _
        · exact (ih _).trans (GWKSetPixelValue_frame poWK st.1 i off _ _ _ b j hj)
      · exact ih _

theorem dtStride_pos (t : GDALDataType) : 0 < dtStride t := by
  cases t <;> norm_num [dtStride]

theorem GWKPixelBody_frame (poWK : GDALWarpKernel) (w : Int) (y : Nat)
    (xs ys : List ℚ) (sc : List Bool) (x : Nat)
    (st : List (List ℚ) × List SrcAccess) (b j : Nat)
    (hx : (x : Int) < poWK.nDstXSize)
    (hj : (j : Int) <
        dtStride poWK.eWorkingDataType * ((y : Int) * poWK.nDstXSize) ∨
      dtStride poWK.eWorkingDataType * (((y : Int) + 1) * poWK.nDstXSize)
        ≤ (j : Int)) :
    dstSlot (GWKPixelBody poWK w y xs ys sc x st).1 b j = dstSlot st.1 b j := by
  unfold GWKPixelBody
  split
  · rfl
  · split
    · rfl
    · split
      · rfl
      · split
        · rfl
        · apply GWKBandLoop_frame
          have hs : 0 < dtStride poWK.eWorkingDataType :=
            dtStride_pos poWK.eWorkingDataType
          set s : Int := dtStride poWK.eWorkingDataType with hsdef
          set X : Int := poWK.nDstXSize with hXdef
          set off : Int := (x : Int) + (y : Int) * X with hoff
          rcases hj with hj | hj
          · left
            have h1 : (y : Int) * X ≤ off := by omega
            have h2 : s * ((y : Int) * X) ≤ s * off :=
              mul_le_mul_of_nonneg_left h1 (le_of_lt hs)
            omega
          · right
            have h1 : off + 1 ≤ ((y : Int) + 1) * X := by
              have h2 : ((y : Int) + 1) * X = (y : Int) * X + X := by ring
              omega
            have h3 : s * (off + 1) ≤ s * (((y : Int) + 1) * X) :=
              mul_le_mul_of_nonneg_left h1 (le_of_lt hs)
            have h4 : s * (off + 1) = s * off + s := by ring
            omega

theorem GWKPixelLoop_frame (poWK : GDALWarpKernel) (w : Int) (y : Nat)
    (xs ys : List ℚ) (sc : List Bool) (b j : Nat)
    (hj : (j : Int) <
        dtStride poWK.eWorkingDataType * ((y : Int) * poWK.nDstXSize) ∨
      dtStride poWK.eWorkingDataType * (((y : Int) + 1) * poWK.nDstXSize)
        ≤ (j : Int)) :
    ∀ (l : List Nat) (st : List (List ℚ) × List SrcAccess),
    (∀ x ∈ l, (x : Int) < poWK.nDstXSize) →
    dstSlot (GWKPixelLoop poWK w y xs ys sc l st).1 b j = dstSlot st.1 b j := by
  intro l
  induction l with
  | nil => intro st _; rfl
  | cons i t ih =>
      intro st hmem
      simp only [GWKPixelLoop]
      rw [ih _ (fun x hx => hmem x (List.mem_cons_of_mem i hx))]
      exact GWKPixelBody_frame poWK w y xs ys sc i st b j
        (hmem i (List.mem_cons_self i t)) hj

theorem GWKRowBody_frame (poWK : GDALWarpKernel) (w : Int) (y : Nat)
    (st : List (List ℚ) × List SrcAccess) (b j : Nat)
    (hj : (j : Int) <
        dtStride poWK.eWorkingDataType * ((y : Int) * poWK.nDstXSize) ∨
      dtStride poWK.eWorkingDataType * (((y : Int) + 1) * poWK.nDstXSize)
        ≤ (j : Int)) :
    dstSlot (GWKRowBody poWK w y st).1 b j = dstSlot st.1 b j := by
  unfold GWKRowBody
  apply GWKPixelLoop_frame poWK w y _ _ _ b j hj
  intro x hx
  have h1 : x < poWK.nDstXSize.toNat := List.mem_range.mp hx
  omega

theorem GWKRowLoop_stop (poWK : GDALWarpKernel) (g : ℚ → Bool) (w : Int) :
    ∀ (l : List Nat) (st : WarpState), st.eErr ≠ CE_None →
    GWKRowLoop poWK g w l st = st := by
  intro l
  induction l with
  | nil => intro st _; rfl
  | cons y t _ =>
      intro st h
      simp only [GWKRowLoop]
      rw [if_pos h]

theorem GWKRowLoop_append (poWK : GDALWarpKernel) (g : ℚ → Bool) (w : Int) :
    ∀ (l1 l2 : List Nat) (st : WarpState),
    GWKRowLoop poWK g w (l1 ++ l2) st
      = GWKRowLoop poWK g w l2 (GWKRowLoop poWK g w l1 st) := by
  intro l1
  induction l1 with
  | nil => intro l2 st; rfl
  | cons y t ih =>
      intro l2 st
      simp only [List.cons_append, GWKRowLoop]
      by_cases he : st.eErr ≠ CE_None
      · rw [if_pos he, if_pos he, GWKRowLoop_stop poWK g w l2 st he]
      · rw [if_neg he, if_neg he]
        split
        · exact ih _ _
        · exact ih _ _

theorem GWKRowLoop_congr_progress (poWK : GDALWarpKernel) (g : ℚ → Bool)
    (w : Int) : ∀ (l : List Nat) (st : WarpState),
    (∀ y ∈ l, g (progressFrac poWK (y : Int)) = true) →
    GWKRowLoop poWK g w l st = GWKRowLoop poWK (fun _ => true) w l st := by
  intro l
  induction l with
  | nil => intro st _; rfl
  | cons y t ih =>
      intro st hall
      simp only [GWKRowLoop]
      split
      · rfl
      · simp only [hall y (List.mem_cons_self y t), eq_self_iff_true, if_true]
        exact ih _ (fun r hr => hall r (List.mem_cons_of_mem y hr))

theorem GWKRowLoop_true_errorLog (poWK : GDALWarpKernel) (w : Int) :
    ∀ (l : List Nat) (st : WarpState),
    (GWKRowLoop poWK (fun _ => true) w l st).errorLog = st.errorLog := by
  intro l
  induction l with
  | nil => intro st; rfl
  | cons y t ih =>
      intro st
      simp only [GWKRowLoop]
      split
      · rfl
      · simp only [eq_self_iff_true, if_true]
        exact ih _

theorem GWKRowLoop_frame_lo (poWK : GDALWarpKernel) (g : ℚ → Bool) (w : Int)
    (R : Nat) (b j : Nat)
    (hj : dtStride poWK.eWorkingDataType * (((R : Int) + 1) * poWK.nDstXSize)
      ≤ (j : Int)) :
    ∀ (l : List Nat) (st : WarpState), (∀ y ∈ l, y ≤ R) →
    dstSlot (GWKRowLoop poWK g w l st).papabyDstImage b j
      = dstSlot st.papabyDstImage b j := by
  intro l
  induction l with
  | nil => intro st _; rfl
  | cons y t ih =>
      intro st hall
      have hbody : dstSlot
          (GWKRowBody poWK w y (st.papabyDstImage, st.accessLog)).1 b j
            = dstSlot st.papabyDstImage b j := by
        apply GWKRowBody_frame
        right
        have hs := dtStride_pos poWK.eWorkingDataType
        set s : Int := dtStride poWK.eWorkingDataType
        set X : Int := poWK.nDstXSize
        have hyR : (y : Int) + 1 ≤ (R : Int) + 1 := by
          have h0 := hall y (List.mem_cons_self y t)
          omega
        rcases le_or_lt 0 X with hX | hX
        · have h1 : ((y : Int) + 1) * X ≤ ((R : Int) + 1) * X :=
            mul_le_mul_of_nonneg_right hyR hX
          have h2 : s * (((y : Int) + 1) * X) ≤ s * (((R : Int) + 1) * X) :=
            mul_le_mul_of_nonneg_left h1 (le_of_lt hs)
          omega
        · have h1 : ((y : Int) + 1) * X < 0 :=
            mul_neg_of_pos_of_neg (by positivity) hX
          have h2 : s * (((y : Int) + 1) * X) < 0 :=
            mul_neg_of_pos_of_neg hs h1
          omega
      simp only [GWKRowLoop]
      split
      · rfl
      · split
        · rw [ih _ (fun r hr => hall r (List.mem_cons_of_mem y hr))]
          exact hbody
        · rw [ih _ (fun r hr => hall r (List.mem_cons_of_mem y hr))]
          exact hbody

theorem GWKRowLoop_frame_hi (poWK : GDALWarpKernel) (g : ℚ → Bool) (w : Int)
    (R : Nat) (b j : Nat)
    (hj : (j : Int) <
      dtStride poWK.eWorkingDataType * (((R : Int) + 1) * poWK.nDstXSize)) :
    ∀ (l : List Nat) (st : WarpState), (∀ y ∈ l, R + 1 ≤ y) →
    dstSlot (GWKRowLoop poWK g w l st).papabyDstImage b j
      = dstSlot st.papabyDstImage b j := by
  intro l
  induction l with
  | nil => intro st _; rfl
  | cons y t ih =>
      intro st hall
      have hbody : dstSlot
          (GWKRowBody poWK w y (st.papabyDstImage, st.accessLog)).1 b j
            = dstSlot st.papabyDstImage b j := by
        apply GWKRowBody_frame
        left
        have hs := dtStride_pos poWK.eWorkingDataType
        set s : Int := dtStride poWK.eWorkingDataType
        set X : Int := poWK.nDstXSize
        have hyR : (R : Int) + 1 ≤ (y : Int) := by
          have h0 := hall y (List.mem_cons_self y t)
          omega
        rcases le_or_lt 0 X with hX | hX
        · have h1 : ((R : Int) + 1) * X ≤ (y : Int) * X :=
            mul_le_mul_of_nonneg_right hyR hX
          have h2 : s * (((R : Int) + 1) * X) ≤ s * ((y : Int) * X) :=
            mul_le_mul_of_nonneg_left h1 (le_of_lt hs)
          omega
        · have h1 : ((R : Int) + 1) * X < 0 :=
            mul_neg_of_pos_of_neg (by positivity) hX
          have h2 : s * (((R : Int) + 1) * X) < 0 :=
            mul_neg_of_pos_of_neg hs h1
          omega
      simp only [GWKRowLoop]
      split
      · rfl
      · split
        · rw [ih _ (fun r hr => hall r (List.mem_cons_of_mem y hr))]
          exact hbody
        · rw [ih _ (fun r hr => hall r (List.mem_cons_of_mem y hr))]
          exact hbody

theorem GWKGeneralCase_run (iDstY0 : Int) (poWK : GDALWarpKernel)
    (g : ℚ → Bool) (h0 : g (progressFrac poWK iDstY0) = true) :
    GWKGeneralCase iDstY0 poWK g =
      GWKRowLoop poWK g
        (if poWK.eResample = GRA_Bilinear then 1
         else if poWK.eResample = GRA_Cubic then 2 else 0)
        (List.range poWK.nDstYSize.toNat)
        { eErr := CE_None, papabyDstImage := poWK.papabyDstImage,
          panDstValid := poWK.panDstValid,
          pafDstDensity := poWK.pafDstDensity,
          progressLog := [progressFrac poWK iDstY0], errorLog := [],
          accessLog := [] } := by
  unfold GWKGeneralCase
  simp only [h0, Bool.not_true, Bool.false_eq_true, if_false]

theorem PerformWarp_eq_GeneralCase (poWK : GDALWarpKernel) (iDstY0 : Int)
    (g : ℚ → Bool) :
    poWK.PerformWarp iDstY0 g = GWKGeneralCase iDstY0 poWK g := rfl

theorem rowstep_cancel (poWK : GDALWarpKernel) (g : ℚ → Bool) (w : Int)
    (y : Nat) (st : WarpState) (hErr : st.eErr = CE_None)
    (hgf : g (progressFrac poWK (y : Int)) = false) :
    GWKRowLoop poWK g w [y] st =
      { eErr := CE_Failure,
        papabyDstImage :=
          (GWKRowBody poWK w y (st.papabyDstImage, st.accessLog)).1,
        panDstValid := st.panDstValid, pafDstDensity := st.pafDstDensity,
        progressLog := st.progressLog ++ [progressFrac poWK (y : Int)],
        errorLog := st.errorLog ++ [CPLE_UserInterrupt],
        accessLog :=
          (GWKRowBody poWK w y (st.papabyDstImage, st.accessLog)).2 } := by
  simp only [GWKRowLoop]
  rw [if_neg (by rw [hErr]; exact fun hc => hc rfl), hgf]
  rfl

theorem rowstep_true (poWK : GDALWarpKernel) (w : Int) (y : Nat)
    (st : WarpState) (hErr : st.eErr = CE_None) :
    GWKRowLoop poWK (fun _ => true) w [y] st =
      { eErr := st.eErr,
        papabyDstImage :=
          (GWKRowBody poWK w y (st.papabyDstImage, st.accessLog)).1,
        panDstValid := st.panDstValid, pafDstDensity := st.pafDstDensity,
        progressLog := st.progressLog ++ [progressFrac poWK (y : Int)],
        errorLog := st.errorLog,
        accessLog :=
          (GWKRowBody poWK w y (st.papabyDstImage, st.accessLog)).2 } := by
  simp only [GWKRowLoop]
  rw [if_neg (by rw [hErr]; exact fun hc => hc rfl)]
  rfl

/-- C9: if the progress callback accepts the initial (uninitialised-row)
report and the reports after rows 0..R-1 but rejects the report after row
R (with R inside the row range), the warp returns CE_Failure having raised
exactly one user-interrupt error, every destination slot belonging to rows
0..R holds exactly the bytes an uncancelled run of the same configuration
produces, and every destination slot from row R+1 on is unchanged from the
initial destination contents. -/
theorem C9_cancellation (poWK : GDALWarpKernel) (g : ℚ → Bool) (iDstY0 : Int)
    (R : Nat) (hR : R < poWK.nDstYSize.toNat)
    (h0 : g (progressFrac poWK iDstY0) = true)
    (hlt : (List.range R).all
      (fun r => g (progressFrac poWK (r : Int))) = true)
    (hRf : g (progressFrac poWK (R : Int)) = false) :
    (poWK.PerformWarp iDstY0 g).eErr = CE_Failure ∧
    (poWK.PerformWarp iDstY0 g).errorLog = [CPLE_UserInterrupt] ∧
    (∀ b j : Nat, (j : Int) <
        dtStride poWK.eWorkingDataType * (((R : Int) + 1) * poWK.nDstXSize) →
      dstSlot (poWK.PerformWarp iDstY0 g).papabyDstImage b j
        = dstSlot (poWK.PerformWarp iDstY0 (fun _ => true)).papabyDstImage
            b j) ∧
    (∀ b j : Nat,
        dtStride poWK.eWorkingDataType * (((R : Int) + 1) * poWK.nDstXSize)
          ≤ (j : Int) →
      dstSlot (poWK.PerformWarp iDstY0 g).papabyDstImage b j
        = dstSlot poWK.papabyDstImage b j) := by
  have hltall : ∀ y ∈ List.range R, g (progressFrac poWK (y : Int)) = true :=
    fun y hy => List.all_eq_true.mp hlt y hy
  have hrunC := (PerformWarp_eq_GeneralCase poWK iDstY0 g).trans
    (GWKGeneralCase_run iDstY0 poWK g h0)
  have hrunF := (PerformWarp_eq_GeneralCase poWK iDstY0 (fun _ => true)).trans
    (GWKGeneralCase_run iDstY0 poWK (fun _ => true) rfl)
  have hsplit : List.range poWK.nDstYSize.toNat
      = (List.range R ++ [R]) ++
        (List.range (poWK.nDstYSize.toNat - (R + 1))).map
          (fun i => (R + 1) + i) := by
    conv_lhs => rw [show poWK.nDstYSize.toNat
      = (R + 1) + (poWK.nDstYSize.toNat - (R + 1)) from by omega]
    rw [List.range_add, List.range_succ]
  rw [hsplit, GWKRowLoop_append, GWKRowLoop_append] at hrunC hrunF
  rw [GWKRowLoop_congr_progress poWK g _ (List.range R) _ hltall] at hrunC
  set st1 : WarpState :=
    { eErr := CE_None, papabyDstImage := poWK.papabyDstImage,
      panDstValid := poWK.panDstValid, pafDstDensity := poWK.pafDstDensity,
      progressLog := [progressFrac poWK iDstY0], errorLog := [],
      accessLog := [] } with hst1
  set w : Int := (if poWK.eResample = GRA_Bilinear then (1 : Int)
    else if poWK.eResample = GRA_Cubic then 2 else 0) with hwdef
  set S : WarpState := GWKRowLoop poWK (fun _ => true) w (List.range R) st1
    with hSdef
  have hSerr : S.eErr = CE_None := by
    rw [hSdef, GWKRowLoop_true_eErr poWK (fun _ => true) w (fun _ => rfl)]
  have hSlog : S.errorLog = [] := by
    rw [hSdef, GWKRowLoop_true_errorLog poWK w (List.range R) st1]
  rw [rowstep_cancel poWK g w R S hSerr hRf] at hrunC
  rw [rowstep_true poWK w R S hSerr] at hrunF
  rw [GWKRowLoop_stop poWK g w _ _
    (fun hc => CPLErr.noConfusion hc)] at hrunC
  have htail : ∀ y ∈ (List.range (poWK.nDstYSize.toNat - (R + 1))).map
      (fun i => (R + 1) + i), R + 1 ≤ y := by
    intro y hy
    rcases List.mem_map.mp hy with ⟨i, _, rfl⟩
    omega
  refine ⟨?_, ?_, ?_, ?_⟩
  · rw [hrunC]
  · rw [hrunC]
    show S.errorLog ++ [CPLE_UserInterrupt] = [CPLE_UserInterrupt]
    rw [hSlog]
    rfl
  · intro b j hj
    rw [hrunC, hrunF]
    rw [GWKRowLoop_frame_hi poWK (fun _ => true) w R b j hj _ _ htail]
  · intro b j hj
    rw [hrunC]
    show dstSlot (GWKRowBody poWK w R (S.papabyDstImage, S.accessLog)).1 b j
      = dstSlot poWK.papabyDstImage b j
    rw [GWKRowBody_frame poWK w R (S.papabyDstImage, S.accessLog) b j
      (Or.inr hj)]
    show dstSlot S.papabyDstImage b j = _
    rw [hSdef, GWKRowLoop_frame_lo poWK (fun _ => true) w R b j hj
      (List.range R) st1
      (fun y hy => by have h := List.mem_range.mp hy; omega)]

/-- Witness for C9: warping `kIdent` with the cancel-at-one-half progress
callback and stale row value -1 cancels after row 1; slot 5 (row 1)
matches the uncancelled run and slot 9 (row 2) is unchanged. -/
theorem C9_witness :
    ((1 : Nat) < kIdent.nDstYSize.toNat) ∧
    (gCancelAtHalf (progressFrac kIdent (-1)) = true) ∧
    ((List.range 1).all
      (fun r => gCancelAtHalf (progressFrac kIdent (r : Int))) = true) ∧
    (gCancelAtHalf (progressFrac kIdent ((1 : Nat) : Int)) = false) ∧
    (kIdent.PerformWarp (-1) gCancelAtHalf).eErr = CE_Failure ∧
    dstSlot (kIdent.PerformWarp (-1) gCancelAtHalf).papabyDstImage 0 5
      = dstSlot (kIdent.PerformWarp (-1) (fun _ => true)).papabyDstImage 0 5 ∧
    dstSlot (kIdent.PerformWarp (-1) gCancelAtHalf).papabyDstImage 0 9
      = dstSlot kIdent.papabyDstImage 0 9 := by
  have h := C9_cancellation kIdent gCancelAtHalf (-1) 1
    (by with_unfolding_all decide) (by with_unfolding_all decide)
    (by with_unfolding_all decide) (by with_unfolding_all decide)
  exact ⟨by with_unfolding_all decide, by with_unfolding_all decide,
    by with_unfolding_all decide, by with_unfolding_all decide,
    h.1, h.2.2.1 0 5 (by with_unfolding_all decide),
    h.2.2.2 0 9 (by with_unfolding_all decide)⟩
